import Mathlib

/-!
Verification of the LLM-State-Machine core engine against its design
specification.  The repository ships five example agents (src/examples,
src/tutor_agent.py) that consume a core engine package (`fsm_llm.fsm` /
`core.fsm`: classes `LLMStateMachine`, `FSMRun`, `ImmediateStateChange`).
That engine package is not present in src/, so the engine below is
modelled from the specification's words (sections 2-7) and from the call
contract the example agents exhibit; each such definition carries a
doc comment beginning `Modelled from the spec:`.
-/

namespace LLMSM

/-- A state identifier (Python: the `state_key` string). -/
abbrev StateId := String

/-- Modelled from the spec: the ContextStore of `fsm_llm.fsm` (missing from
src/) is a per-instance mapping from string key to serializable value,
mutated only by handlers.  Values are modelled as strings; the claims under
study never inspect value structure.  Represented as an association list in
which the most recent binding for a key shadows older ones. -/
abbrev Ctx := List (String × String)

/-- Modelled from the spec: `set_context(k, v)` of the missing engine
(`fsm_llm.fsm.LLMStateMachine.set_context_data`).  Adds a binding that
shadows any previous binding of `k`. -/
def ctxSet (c : Ctx) (k v : String) : Ctx := (k, v) :: c

/-- Modelled from the spec: `get_context(k)` of the missing engine
(`fsm_llm.fsm.LLMStateMachine.get_context_data`): the most recently
written value for `k`, or absent. -/
def ctxGet (c : Ctx) (k : String) : Option String :=
  match c with
  | [] => none
  | (k', v) :: rest => if k' = k then some v else ctxGet rest k

/-- Modelled from the spec: a prompt source is either a static template
string (rendered with context placeholders) or a preprocessing callable
invoked with the last user input and the context (spec section 4.2;
`prompt_template` / `preprocess_prompt_template` arguments of
`define_state` in the missing `fsm_llm.fsm`). -/
inductive PromptSource where
  | static (template : String)
  | preprocess (f : String → Ctx → String)

/-- Modelled from the spec: `ImmediateStateChange` of the missing
`fsm_llm.state_models` (spec: ImmediateOverride): target state id,
forwarded input text, and the reuse-payload flag
(`keep_original_response`). -/
inductive HandlerRet where
  | text (s : String)
  | override (target : StateId) (input : String) (reusePayload : Bool)

/-- The response text a handler return contributes: its plain text, or,
for an override, the forwarded input text. -/
def HandlerRet.responseText (r : HandlerRet) : String :=
  match r with
  | .text s => s
  | .override _ i _ => i

/-- Modelled from the spec: the observable outcome of one handler
invocation of the missing engine.  `ctx` is the ContextStore after the
handler's `set_context` calls; `pendingNext` is the state id passed to
`set_next_state`, if the handler called it (usage contract exhibited by
`src/examples/support_agent.py` and `src/examples/switch_agent.py`);
`ret` is the returned value. -/
structure HandlerOut where
  ctx : Ctx
  pendingNext : Option StateId
  ret : HandlerRet

/-- Modelled from the spec: a turn handler of the missing engine.  It is
invoked with the context, the structured payload, `will_transition`, and
the resolver's proposed next state (readable via `get_next_state`, per the
example agents); `none` models a handler that raises (HandlerError). -/
def Handler := Ctx → String → Bool → StateId → Option HandlerOut

/-- Modelled from the spec: a StateDefinition of the missing engine:
identifier, prompt source, outgoing edges (target id, natural-language
condition), optional handler.  The response schema is abstracted away:
schema validation happens inside the model-client boundary, modelled by
`ModelReply` below. -/
structure StateDef where
  id : StateId
  promptSource : PromptSource
  edges : List (StateId × String)
  handler : Option Handler

/-- Modelled from the spec: the StateRegistry of the missing engine plus
the terminal state id fixed at machine construction
(`LLMStateMachine(initial_state=..., end_state=...)`). -/
structure Registry where
  states : List StateDef
  terminal : StateId

/-- The registered state ids. -/
def Registry.ids (r : Registry) : List StateId := r.states.map (·.id)

/-- Lookup of a registered StateDefinition by id. -/
def Registry.lookup (r : Registry) (i : StateId) : Option StateDef :=
  r.states.find? (fun sd => sd.id = i)

/-- Modelled from the spec: the post-`finalize()` well-formedness checks of
the missing registry: no duplicate ids (DuplicateStateError), every edge
target registered (DanglingEdgeError), terminal id registered
(NoTerminalStateError). -/
def Registry.validate (r : Registry) : Bool :=
  r.ids.Nodup && r.ids.contains r.terminal &&
    r.states.all (fun sd => sd.edges.all (fun e => r.ids.contains e.1))

/-- Modelled from the spec: the outcome of one model interaction at the
LLM-client boundary of the missing engine, as seen by the engine after
the bounded retry loop: a transport failure (ClientError), a reply that
still does not fit the declared schema (SchemaValidationError), or a
parsed structured payload together with the transition field. -/
inductive ModelReply where
  | clientError
  | schemaError
  | ok (payload : String) (transition : String)

/-- Modelled from the spec: the per-turn error taxonomy of the missing
engine (spec section 7).  `unregisteredState` is the guard that keeps
`current_state` inside the registered id set when a handler directive
names an id that was never registered. -/
inductive TurnError where
  | alreadyCompleted
  | clientError
  | schemaValidation
  | unknownTransition (field : String)
  | handlerError
  | unregisteredState (id : StateId)
deriving DecidableEq

/-- Modelled from the spec: a TurnRecord of the missing engine: input
text, prior state id, parsed structured payload (standing in for the raw
model output as well), resolved next state id, emitted response text, and
a commit-order timestamp. -/
structure TurnRecord where
  input : String
  priorState : StateId
  payload : String
  resolvedNext : StateId
  response : String
  timestamp : Nat
deriving DecidableEq

/-- Modelled from the spec: one running conversation of the missing
engine: registry, configured fallback id for undeclared transitions
(spec 4.3 step 3), current state id, ContextStore, ordered turn history. -/
structure Engine where
  registry : Registry
  fallback : Option StateId
  current : StateId
  ctx : Ctx
  history : List TurnRecord

/-- Modelled from the spec: `is_completed()` of the missing engine: true
iff the current state equals the terminal state id. -/
def isCompleted (e : Engine) : Bool := e.current == e.registry.terminal

/-- Modelled from the spec: the sentinel transition value meaning
"stay in the current state" (spec 4.3 step 4). -/
def noOpSentinel : String := "no-op"

/-- Left brace character, used by the placeholder renderer. -/
def lbrace : Char := Char.ofNat 123

/-- Right brace character, used by the placeholder renderer. -/
def rbrace : Char := Char.ofNat 125

/-- Modelled from the spec: rendering of a static template with built-in
placeholders - each occurrence of a context key between braces is replaced
by the context value (spec 4.2). -/
def renderTemplate (t : String) (c : Ctx) : String :=
  c.foldl
    (fun acc kv =>
      acc.replace (String.singleton lbrace ++ kv.1 ++ String.singleton rbrace) kv.2)
    t

/-- Modelled from the spec: the machine-readable description of the
current state's outgoing edges (target id and condition text) that the
composer appends so the model can pick among them (spec 4.2). -/
def edgesDescription (edges : List (StateId × String)) : String :=
  edges.foldl
    (fun acc e => acc ++ "\n- " ++ e.1 ++ ": " ++ e.2)
    "\n\nAvailable transitions:"

/-- Modelled from the spec: the PromptComposer of the missing engine
(spec 4.2).  A static template is rendered with context placeholders; a
preprocessing callable is invoked with the last user input and the context
and its return value is used verbatim; the edges description is appended
in both cases. -/
def composePrompt (sd : StateDef) (c : Ctx) (lastInput : String) : String :=
  (match sd.promptSource with
   | .static t => renderTemplate t c
   | .preprocess f => f lastInput c) ++ edgesDescription sd.edges

/-- Modelled from the spec: steps 3-4 of the TransitionResolver protocol
(spec 4.3): the current state's own id or the no-op sentinel always means
"stay"; a declared edge target is taken; otherwise the configured fallback
id is used when defined and the turn fails with UnknownTransitionError
when it is not. -/
def resolveTransition (current : StateId) (edges : List (StateId × String))
    (fallback : Option StateId) (field : String) : Except TurnError StateId :=
  if field = noOpSentinel ∨ field = current then .ok current
  else if edges.any (fun e => e.1 == field) then .ok field
  else
    match fallback with
    | some fb => .ok fb
    | none => .error (.unknownTransition field)

/-- Modelled from the spec: step 5 of the TransitionResolver protocol:
`will_transition = (resolved id != current state)`. -/
def willTransition (current resolved : StateId) : Bool := resolved != current

/-- Modelled from the spec: handler invocation of the missing engine.  A
state without a handler leaves the context untouched and emits the payload
as the response. -/
def runHandler (sd : StateDef) (c : Ctx) (payload : String) (willT : Bool)
    (proposed : StateId) : Option HandlerOut :=
  match sd.handler with
  | none => some ⟨c, none, .text payload⟩
  | some h => h c payload willT proposed

/-- Modelled from the spec: the commit step of the missing engine
(spec 4.5): keep the handler chain's context, move `current_state` to the
final resolved id, append one TurnRecord.  The registered-id guard keeps
the invariant that `current_state` is always a registered id; a handler
directive naming an unregistered id fails the turn with no mutation. -/
def commit (e : Engine) (input payload : String) (next : StateId)
    (response : String) (c2 : Ctx) : Except TurnError TurnRecord × Engine :=
  if e.registry.ids.contains next then
    let rec0 : TurnRecord := ⟨input, e.current, payload, next, response, e.history.length⟩
    (.ok rec0, { e with current := next, ctx := c2, history := e.history ++ [rec0] })
  else (.error (.unregisteredState next), e)

/-- Modelled from the spec: `run_turn` of the missing engine
(`LLMStateMachine.run_state_machine`), driving one turn end to end
(spec 4.5): completion check, prompt composition, model interaction
(`llm` is the external client, a function of the composed prompt),
transition resolution, handler invocation with the override and
reuse-payload cascade of spec 4.4, then the atomic commit.  Every failure
branch returns the engine unchanged. -/
def runTurn (e : Engine) (input : String) (llm : String → ModelReply) :
    Except TurnError TurnRecord × Engine :=
  if isCompleted e then (.error .alreadyCompleted, e)
  else
    match e.registry.lookup e.current with
    | none => (.error (.unregisteredState e.current), e)
    | some sd =>
      match llm (composePrompt sd e.ctx input) with
      | .clientError => (.error .clientError, e)
      | .schemaError => (.error .schemaValidation, e)
      | .ok payload field =>
        match resolveTransition e.current sd.edges e.fallback field with
        | .error err => (.error err, e)
        | .ok proposed =>
          match runHandler sd e.ctx payload (willTransition e.current proposed) proposed with
          | none => (.error .handlerError, e)
          | some hout =>
            match hout.ret with
            | .text s => commit e input payload (hout.pendingNext.getD proposed) s hout.ctx
            | .override target inp reuse =>
              if reuse then
                match e.registry.lookup target with
                | none => (.error (.unregisteredState target), e)
                | some sd2 =>
                  match runHandler sd2 hout.ctx payload true target with
                  | none => (.error .handlerError, e)
                  | some hout2 =>
                    commit e input payload target hout2.ret.responseText hout2.ctx
              else commit e input payload target inp hout.ctx

/-- Modelled from the spec: a sequence of turns on one instance; a failed
turn leaves the engine unchanged and the conversation continues. -/
def runTurns (e : Engine) : List (String × (String → ModelReply)) → Engine
  | [] => e
  | (i, llm) :: rest => runTurns (runTurn e i llm).2 rest

/-- A handler never changes what the context returns for key `k`. -/
def HandlerPreserves (k : String) (h : Handler) : Prop :=
  ∀ c p w pr out, h c p w pr = some out → ctxGet out.ctx k = ctxGet c k

/-- Every handler registered in `r` preserves key `k`. -/
def RegistryPreserves (k : String) (r : Registry) : Prop :=
  ∀ sd, sd ∈ r.states → ∀ hf, sd.handler = some hf → HandlerPreserves k hf

/-- A model client that always fails with a transport error. -/
def llmErr : String → ModelReply := fun _ => .clientError

/-- A model client that always returns payload "payload" and transition
field `t`. -/
def llmPick (t : String) : String → ModelReply := fun _ => .ok "payload" t

/-- Example state A: edges to B and C, no handler. -/
def sdA : StateDef := ⟨"A", .static "prompt A", [("B", "when ready"), ("C", "when alternate")], none⟩

/-- Example state B (terminal), no edges, no handler. -/
def sdB : StateDef := ⟨"B", .static "prompt B", [], none⟩

/-- Example state C, no edges, no handler. -/
def sdC : StateDef := ⟨"C", .static "prompt C", [], none⟩

/-- A three-state registry with terminal state B. -/
def sampleRegistry : Registry := ⟨[sdA, sdB, sdC], "B"⟩

/-- An engine at state A over `sampleRegistry`. -/
def engineA : Engine := ⟨sampleRegistry, none, "A", [], []⟩

/-- An engine already at the terminal state B. -/
def engineDone : Engine := ⟨sampleRegistry, none, "B", [], []⟩

/-- An engine at state A whose context already binds "k" to "v". -/
def engineK : Engine := ⟨sampleRegistry, none, "A", [("k", "v")], []⟩

/-- A handler that returns an ImmediateOverride to state X (not a declared
edge of its state), without payload reuse. -/
def hOverride : Handler := fun c _ _ _ => some ⟨c, none, .override "X" "forced" false⟩

/-- State A variant whose handler forces an override to X; X is not among
its declared edges. -/
def sdAO : StateDef := ⟨"A", .static "prompt A", [("B", "when ready")], some hOverride⟩

/-- State X, reachable only through overrides. -/
def sdX : StateDef := ⟨"X", .static "prompt X", [], none⟩

/-- Registry for the override example. -/
def overrideRegistry : Registry := ⟨[sdAO, sdB, sdX], "B"⟩

/-- Engine at state A whose handler overrides to X. -/
def engineO : Engine := ⟨overrideRegistry, none, "A", [], []⟩

/-- A handler that returns an ImmediateOverride to X with the reuse-payload
flag set. -/
def hCascade : Handler := fun c _ _ _ => some ⟨c, none, .override "X" "forced" true⟩

/-- A handler that records the payload it receives under key "seen" and
returns plain text. -/
def hReceive : Handler := fun c p _ _ => some ⟨ctxSet c "seen" p, none, .text "handled"⟩

/-- State A variant whose handler overrides to X reusing the payload. -/
def sdAR : StateDef := ⟨"A", .static "prompt A", [("B", "when ready")], some hCascade⟩

/-- State X variant with the recording handler. -/
def sdXR : StateDef := ⟨"X", .static "prompt X", [], some hReceive⟩

/-- Registry for the reuse-payload cascade example. -/
def cascadeRegistry : Registry := ⟨[sdAR, sdB, sdXR], "B"⟩

/-- Engine at state A whose handler cascades into X. -/
def engineR : Engine := ⟨cascadeRegistry, none, "A", [], []⟩

/-- A handler that records the resolver's proposed next state (what
`get_next_state` returns) under key "proposed", then calls
`set_next_state("C")` and returns plain text. -/
def hSetNext : Handler := fun c _ _ pr => some ⟨ctxSet c "proposed" pr, some "C", .text "done"⟩

/-- State A variant whose handler redirects the turn to C via
`set_next_state`. -/
def sdAN : StateDef := ⟨"A", .static "prompt A", [("B", "when ready")], some hSetNext⟩

/-- Registry for the set_next_state example. -/
def nextRegistry : Registry := ⟨[sdAN, sdB, sdC], "B"⟩

/-- Engine at state A whose handler redirects to C. -/
def engineN : Engine := ⟨nextRegistry, none, "A", [], []⟩

/-- A preprocessing callable for the prompt composer. -/
def fPrep : String → Ctx → String := fun i _ => "preprocessed: " ++ i

/-- A state whose prompt source is the preprocessing callable `fPrep`. -/
def sdP : StateDef := ⟨"P", .preprocess fPrep, [("Q", "when done")], none⟩

/-- Every run of `runTurn` either fails and returns the engine unchanged,
or succeeds and leaves the current state inside the registered id set. -/
theorem runTurn_cases (e : Engine) (input : String) (llm : String → ModelReply) :
    ((runTurn e input llm).2 = e ∧ ∃ err, (runTurn e input llm).1 = .error err) ∨
      ((runTurn e input llm).2.current ∈ (runTurn e input llm).2.registry.ids ∧
        ∃ rec0, (runTurn e input llm).1 = .ok rec0) := by
  unfold runTurn commit
  repeat' split
  all_goals first
    | exact Or.inl ⟨rfl, _, rfl⟩
    | (refine Or.inr ⟨?_, _, rfl⟩
       rename_i hcon
       simpa using hcon)

/-- Running a turn never changes the registry or the fallback
configuration. -/
theorem runTurn_registry (e : Engine) (input : String) (llm : String → ModelReply) :
    (runTurn e input llm).2.registry = e.registry := by
  unfold runTurn commit
  repeat' split
  all_goals rfl

/-- A handler invocation through `runHandler` preserves key `k` whenever
every registered handler does. -/
theorem runHandler_ctx_preserved (k : String) (r : Registry)
    (hp : RegistryPreserves k r) (sd : StateDef) (hmem : sd ∈ r.states)
    (c : Ctx) (p : String) (w : Bool) (pr : StateId) (out : HandlerOut)
    (h : runHandler sd c p w pr = some out) :
    ctxGet out.ctx k = ctxGet c k := by
  unfold runHandler at h
  cases hh : sd.handler with
  | none => rw [hh] at h; cases h; rfl
  | some hf => rw [hh] at h; exact hp sd hmem hf hh c p w pr out h

/-- A single turn preserves key `k` of the context whenever every
registered handler does. -/
theorem runTurn_ctx_preserved (k : String) (e : Engine) (input : String)
    (llm : String → ModelReply) (hp : RegistryPreserves k e.registry) :
    ctxGet (runTurn e input llm).2.ctx k = ctxGet e.ctx k := by
  have hmemOf : ∀ t sd, e.registry.lookup t = some sd → sd ∈ e.registry.states :=
    fun t sd hsd => List.mem_of_find?_eq_some (by simpa [Registry.lookup] using hsd)
  cases hco : isCompleted e with
  | true => simp [runTurn, hco]
  | false =>
  cases hsd : e.registry.lookup e.current with
  | none => simp [runTurn, hco, hsd]
  | some sd =>
  have hmem := hmemOf e.current sd hsd
  cases hrep : llm (composePrompt sd e.ctx input) with
  | clientError => simp [runTurn, hco, hsd, hrep]
  | schemaError => simp [runTurn, hco, hsd, hrep]
  | ok payload field =>
  cases hres : resolveTransition e.current sd.edges e.fallback field with
  | error err => simp [runTurn, hco, hsd, hrep, hres]
  | ok proposed =>
  cases hh : runHandler sd e.ctx payload (willTransition e.current proposed) proposed with
  | none => simp [runTurn, hco, hsd, hrep, hres, hh]
  | some hout =>
  have hpres1 := runHandler_ctx_preserved k e.registry hp sd hmem e.ctx payload
    (willTransition e.current proposed) proposed hout hh
  cases hret : hout.ret with
  | text s =>
    by_cases hcon : hout.pendingNext.getD proposed ∈ e.registry.ids
    · simp [runTurn, commit, hco, hsd, hrep, hres, hh, hret, hcon, hpres1]
    · simp [runTurn, commit, hco, hsd, hrep, hres, hh, hret, hcon]
  | override target inp reuse =>
    cases reuse with
    | false =>
      by_cases hcon : target ∈ e.registry.ids
      · simp [runTurn, commit, hco, hsd, hrep, hres, hh, hret, hcon, hpres1]
      · simp [runTurn, commit, hco, hsd, hrep, hres, hh, hret, hcon]
    | true =>
      cases hsd2 : e.registry.lookup target with
      | none => simp [runTurn, commit, hco, hsd, hrep, hres, hh, hret, hsd2]
      | some sd2 =>
      have hmem2 := hmemOf target sd2 hsd2
      cases hh2 : runHandler sd2 hout.ctx payload true target with
      | none => simp [runTurn, commit, hco, hsd, hrep, hres, hh, hret, hsd2, hh2]
      | some hout2 =>
      have hpres2 := runHandler_ctx_preserved k e.registry hp sd2 hmem2 hout.ctx payload
        true target hout2 hh2
      by_cases hcon : target ∈ e.registry.ids
      · simp [runTurn, commit, hco, hsd, hrep, hres, hh, hret, hsd2, hh2, hcon,
          hpres2.trans hpres1]
      · simp [runTurn, commit, hco, hsd, hrep, hres, hh, hret, hsd2, hh2, hcon]

/-- Context preservation extended over any sequence of turns. -/
theorem runTurns_ctx_preserved (k v : String) :
    ∀ (ts : List (String × (String → ModelReply))) (e : Engine),
      RegistryPreserves k e.registry → ctxGet e.ctx k = some v →
        ctxGet (runTurns e ts).ctx k = some v := by
  intro ts
  induction ts with
  | nil => intro e _ hv; exact hv
  | cons t rest ih =>
    intro e hp hv
    obtain ⟨i, llm⟩ := t
    exact ih (runTurn e i llm).2
      (by rw [runTurn_registry]; exact hp)
      ((runTurn_ctx_preserved k e i llm hp).trans hv)

/-- C1: any failure of `runTurn` - completion check, model interaction,
transition resolution, handler invocation, or the commit guard - performs
no mutation: `current_state`, the ContextStore, and the turn history after
the failed call equal their values before the call. -/
theorem runTurn_failure_no_mutation (e : Engine) (input : String)
    (llm : String → ModelReply) (err : TurnError)
    (h : (runTurn e input llm).1 = .error err) :
    (runTurn e input llm).2.current = e.current ∧
      (runTurn e input llm).2.ctx = e.ctx ∧
      (runTurn e input llm).2.history = e.history := by
  rcases runTurn_cases e input llm with ⟨he, -⟩ | ⟨-, rec0, hrec⟩
  · exact ⟨by rw [he], by rw [he], by rw [he]⟩
  · rw [h] at hrec; cases hrec

/-- C1 witness: a transport failure at state A mutates nothing. -/
theorem runTurn_failure_no_mutation_witness :
    (runTurn engineA "hi" llmErr).2.current = engineA.current ∧
      (runTurn engineA "hi" llmErr).2.ctx = engineA.ctx ∧
      (runTurn engineA "hi" llmErr).2.history = engineA.history :=
  runTurn_failure_no_mutation engineA "hi" llmErr .clientError rfl

/-- C2: after every committed turn the current state is a registered state
id, and `is_completed()` is true iff the current state equals the terminal
state id fixed at construction. -/
theorem committed_turn_state_invariant (e : Engine) (input : String)
    (llm : String → ModelReply) (rec0 : TurnRecord)
    (h : (runTurn e input llm).1 = .ok rec0) :
    (runTurn e input llm).2.current ∈ (runTurn e input llm).2.registry.ids ∧
      (isCompleted (runTurn e input llm).2 = true ↔
        (runTurn e input llm).2.current = (runTurn e input llm).2.registry.terminal) := by
  refine ⟨?_, by simp [isCompleted]⟩
  rcases runTurn_cases e input llm with ⟨-, err, herr⟩ | ⟨hmem, -⟩
  · rw [h] at herr; cases herr
  · exact hmem

/-- C2 witness: a committed turn A → B lands on a registered id. -/
theorem committed_turn_state_invariant_witness :
    (runTurn engineA "go" (llmPick "B")).2.current ∈
        (runTurn engineA "go" (llmPick "B")).2.registry.ids ∧
      (isCompleted (runTurn engineA "go" (llmPick "B")).2 = true ↔
        (runTurn engineA "go" (llmPick "B")).2.current =
          (runTurn engineA "go" (llmPick "B")).2.registry.terminal) :=
  committed_turn_state_invariant engineA "go" (llmPick "B")
    ⟨"go", "A", "payload", "B", "payload", 0⟩ rfl

/-- C3: the resolver treats the no-op sentinel and the current state's own
id as "stay", with no declared self-edge required (the edge list is
universally quantified), and `will_transition` is exactly
`resolved id != current state`, hence false for a stay. -/
theorem resolver_will_transition_and_stay (current : StateId)
    (edges : List (StateId × String)) (fallback : Option StateId) :
    resolveTransition current edges fallback noOpSentinel = .ok current ∧
      resolveTransition current edges fallback current = .ok current ∧
      willTransition current current = false ∧
      ∀ field resolved,
        resolveTransition current edges fallback field = .ok resolved →
          willTransition current resolved = (resolved != current) := by
  refine ⟨?_, ?_, ?_, ?_⟩
  · simp [resolveTransition]
  · simp [resolveTransition]
  · simp [willTransition]
  · intro field resolved _
    rfl

/-- C3 witness: at state A with a single edge to B (no self-edge), both
stay forms resolve to A with `will_transition = false`, and a resolved
transition to B reports `will_transition = (B != A)`. -/
theorem resolver_will_transition_and_stay_witness :
    resolveTransition "A" [("B", "cond")] none noOpSentinel = .ok "A" ∧
      resolveTransition "A" [("B", "cond")] none "A" = .ok "A" ∧
      willTransition "A" "A" = false ∧
      willTransition "A" "B" = ("B" != "A") := by
  have h := resolver_will_transition_and_stay "A" [("B", "cond")] none
  exact ⟨h.1, h.2.1, h.2.2.1, h.2.2.2 "B" "B" rfl⟩

/-- C4: when the current state's handler returns an ImmediateOverride with
target X and the turn commits, the committed next state is X - the edge
list of the current state is universally quantified, so X need not be a
declared edge. -/
theorem immediate_override_wins (e : Engine) (input : String)
    (llm : String → ModelReply) (sd : StateDef) (payload field proposed : String)
    (hout : HandlerOut) (target inp : String) (reuse : Bool) (rec0 : TurnRecord)
    (hnc : isCompleted e = false)
    (hsd : e.registry.lookup e.current = some sd)
    (hllm : llm (composePrompt sd e.ctx input) = .ok payload field)
    (hres : resolveTransition e.current sd.edges e.fallback field = .ok proposed)
    (hh : runHandler sd e.ctx payload (willTransition e.current proposed) proposed = some hout)
    (hret : hout.ret = .override target inp reuse)
    (hok : (runTurn e input llm).1 = .ok rec0) :
    (runTurn e input llm).2.current = target := by
  cases reuse with
  | false =>
    by_cases hcon : target ∈ e.registry.ids
    · simp [runTurn, commit, hnc, hsd, hllm, hres, hh, hret, hcon]
    · rw [show runTurn e input llm = (.error (.unregisteredState target), e) from by
        simp [runTurn, commit, hnc, hsd, hllm, hres, hh, hret, hcon]] at hok
      cases hok
  | true =>
    cases hsd2 : e.registry.lookup target with
    | none =>
      rw [show runTurn e input llm = (.error (.unregisteredState target), e) from by
        simp [runTurn, hnc, hsd, hllm, hres, hh, hret, hsd2]] at hok
      cases hok
    | some sd2 =>
      cases hh2 : runHandler sd2 hout.ctx payload true target with
      | none =>
        rw [show runTurn e input llm = (.error .handlerError, e) from by
          simp [runTurn, hnc, hsd, hllm, hres, hh, hret, hsd2, hh2]] at hok
        cases hok
      | some hout2 =>
        by_cases hcon : target ∈ e.registry.ids
        · simp [runTurn, commit, hnc, hsd, hllm, hres, hh, hret, hsd2, hh2, hcon]
        · rw [show runTurn e input llm = (.error (.unregisteredState target), e) from by
            simp [runTurn, commit, hnc, hsd, hllm, hres, hh, hret, hsd2, hh2, hcon]] at hok
          cases hok

/-- C4 witness: at state A (edges only to B) the handler overrides to X,
which is not a declared edge of A; the committed next state is X. -/
theorem immediate_override_wins_witness :
    (runTurn engineO "go" (llmPick "B")).2.current = "X" :=
  immediate_override_wins engineO "go" (llmPick "B") sdAO "payload" "B" "B"
    ⟨[], none, .override "X" "forced" false⟩ "X" "forced" false
    ⟨"go", "A", "payload", "X", "forced", 0⟩ rfl rfl rfl rfl rfl rfl rfl

/-- C5: when the handler returns an ImmediateOverride with the reuse-payload
flag set, the override target's own handler is invoked exactly once,
synchronously within the same turn, with the same structured payload and
`will_transition = true` (the literal argument in `hh2`), and its output
context and response are what the turn then commits. -/
theorem override_reuse_payload_cascade (e : Engine) (input : String)
    (llm : String → ModelReply) (sd : StateDef) (payload field proposed : String)
    (hout : HandlerOut) (target inp : String) (sd2 : StateDef) (hout2 : HandlerOut)
    (hnc : isCompleted e = false)
    (hsd : e.registry.lookup e.current = some sd)
    (hllm : llm (composePrompt sd e.ctx input) = .ok payload field)
    (hres : resolveTransition e.current sd.edges e.fallback field = .ok proposed)
    (hh : runHandler sd e.ctx payload (willTransition e.current proposed) proposed = some hout)
    (hret : hout.ret = .override target inp true)
    (hsd2 : e.registry.lookup target = some sd2)
    (hh2 : runHandler sd2 hout.ctx payload true target = some hout2)
    (hreg : e.registry.ids.contains target = true) :
    runTurn e input llm =
      (.ok ⟨input, e.current, payload, target, hout2.ret.responseText, e.history.length⟩,
        { e with
          current := target
          ctx := hout2.ctx
          history := e.history ++
            [⟨input, e.current, payload, target, hout2.ret.responseText,
              e.history.length⟩] }) := by
  simp [runTurn, commit, hnc, hsd, hllm, hres, hh, hret, hsd2, hh2]
  simpa using hreg

/-- C5 witness: A's handler overrides to X reusing the payload; X's handler
runs once in the same turn, sees the same payload (recorded under "seen"),
and its response is committed. -/
theorem override_reuse_payload_cascade_witness :
    (runTurn engineR "go" (llmPick "B")).2.current = "X" ∧
      ctxGet (runTurn engineR "go" (llmPick "B")).2.ctx "seen" = some "payload" ∧
      (runTurn engineR "go" (llmPick "B")).1 =
        .ok ⟨"go", "A", "payload", "X", "handled", 0⟩ := by
  have h := override_reuse_payload_cascade engineR "go" (llmPick "B") sdAR "payload" "B" "B"
    ⟨[], none, .override "X" "forced" true⟩ "X" "forced" sdXR
    ⟨[("seen", "payload")], none, .text "handled"⟩
    rfl rfl rfl rfl rfl rfl rfl rfl rfl
  refine ⟨?_, ?_, ?_⟩ <;> rw [h] <;> rfl

/-- C6: when the model's transition field names an id that is neither the
current state, the no-op sentinel, nor a declared edge target, and no
fallback id is configured, `runTurn` fails with UnknownTransitionError and
the engine - in particular `current_state` - is unchanged. -/
theorem unknown_transition_no_fallback_fails (e : Engine) (input : String)
    (llm : String → ModelReply) (sd : StateDef) (payload field : String)
    (hnc : isCompleted e = false)
    (hsd : e.registry.lookup e.current = some sd)
    (hllm : llm (composePrompt sd e.ctx input) = .ok payload field)
    (hnop : field ≠ noOpSentinel)
    (hcur : field ≠ e.current)
    (hedge : sd.edges.any (fun ed => ed.1 == field) = false)
    (hfb : e.fallback = none) :
    runTurn e input llm = (.error (.unknownTransition field), e) := by
  have hres : resolveTransition e.current sd.edges e.fallback field
      = .error (.unknownTransition field) := by
    simp [resolveTransition, hnop, hcur, hedge, hfb]
  simp [runTurn, hnc, hsd, hllm, hres]

/-- C6 witness: at A (edges to B and C) the model picks "D" with no
fallback configured; the turn fails with UnknownTransitionError and the
engine is unchanged. -/
theorem unknown_transition_no_fallback_fails_witness :
    runTurn engineA "go" (llmPick "D") = (.error (.unknownTransition "D"), engineA) :=
  unknown_transition_no_fallback_fails engineA "go" (llmPick "D") sdA "payload" "D"
    rfl rfl rfl (by decide) (by decide) rfl rfl

/-- C7: once the completed flag is true (current state equals the terminal
state), `runTurn` fails with AlreadyCompletedError and appends no
TurnRecord to the history. -/
theorem already_completed_rejects_run_turn (e : Engine) (input : String)
    (llm : String → ModelReply) (h : isCompleted e = true) :
    runTurn e input llm = (.error .alreadyCompleted, e) ∧
      (runTurn e input llm).2.history = e.history := by
  have heq : runTurn e input llm = (.error .alreadyCompleted, e) := by
    unfold runTurn
    rw [if_pos h]
  exact ⟨heq, by rw [heq]⟩

/-- C7 witness: an engine resting at the terminal state B rejects a turn
with AlreadyCompletedError and an unchanged history. -/
theorem already_completed_rejects_run_turn_witness :
    runTurn engineDone "go" llmErr = (.error .alreadyCompleted, engineDone) ∧
      (runTurn engineDone "go" llmErr).2.history = engineDone.history :=
  already_completed_rejects_run_turn engineDone "go" llmErr rfl

/-- C8: `set_context(k, v)` makes `get_context(k)` return `v`, and once the
context holds `k ↦ v` after a committed turn, any number of further turns
whose handlers do not overwrite `k` still report `get_context(k) = v`:
handler-written context persists across turns for the machine's life. -/
theorem context_persists_across_turns (k v : String) (e : Engine)
    (ts : List (String × (String → ModelReply)))
    (hp : RegistryPreserves k e.registry)
    (hv : ctxGet e.ctx k = some v) :
    (∀ c : Ctx, ctxGet (ctxSet c k v) k = some v) ∧
      ctxGet (runTurns e ts).ctx k = some v :=
  ⟨fun c => by simp [ctxSet, ctxGet], runTurns_ctx_preserved k v ts e hp hv⟩

/-- C8 witness: an engine whose context binds "k" to "v" still reports it
after two further turns (one committed, one failed); no registered handler
touches "k". -/
theorem context_persists_across_turns_witness :
    ctxGet (ctxSet [] "k" "v") "k" = some "v" ∧
      ctxGet (runTurns engineK [("t1", llmPick "C"), ("t2", llmErr)]).ctx "k" = some "v" := by
  have h := context_persists_across_turns "k" "v" engineK
    [("t1", llmPick "C"), ("t2", llmErr)]
    (by
      intro sd hmem hf hh
      have hmem' : sd = sdA ∨ sd = sdB ∨ sd = sdC := by
        simpa [engineK, sampleRegistry] using hmem
      rcases hmem' with rfl | rfl | rfl <;> exact Option.noConfusion hh)
    rfl
  exact ⟨h.1 [], h.2⟩

/-- C9: when a state's prompt source is a preprocessing callable, the
composer invokes it with the last user input and the current context and
embeds its return value verbatim as the prompt body, followed by the
machine-readable edges description the composer always appends. -/
theorem preprocess_prompt_verbatim (f : String → Ctx → String) (sd : StateDef)
    (c : Ctx) (input : String) (hp : sd.promptSource = .preprocess f) :
    composePrompt sd c input = f input c ++ edgesDescription sd.edges := by
  simp [composePrompt, hp]

/-- C9 witness: the callable `fPrep` of state P is applied to the input and
context and its value opens the composed prompt verbatim. -/
theorem preprocess_prompt_verbatim_witness :
    composePrompt sdP [("x", "1")] "hello" =
      fPrep "hello" [("x", "1")] ++ edgesDescription sdP.edges :=
  preprocess_prompt_verbatim fPrep sdP [("x", "1")] "hello" rfl

/-- C10: a handler that calls `set_next_state(target)` with a registered id
and returns plain text commits `target` as the next state, replacing the
resolver's proposed next state; the proposal itself (what
`get_next_state()` returns before any such call) is the `proposed`
argument `runTurn` hands the handler, coming straight from the resolver
(`hres`). -/
theorem set_next_state_overrides_resolver (e : Engine) (input : String)
    (llm : String → ModelReply) (sd : StateDef) (payload field proposed : String)
    (hout : HandlerOut) (s target : String)
    (hnc : isCompleted e = false)
    (hsd : e.registry.lookup e.current = some sd)
    (hllm : llm (composePrompt sd e.ctx input) = .ok payload field)
    (hres : resolveTransition e.current sd.edges e.fallback field = .ok proposed)
    (hh : runHandler sd e.ctx payload (willTransition e.current proposed) proposed = some hout)
    (hret : hout.ret = .text s)
    (hpn : hout.pendingNext = some target)
    (hreg : e.registry.ids.contains target = true) :
    runTurn e input llm =
      (.ok ⟨input, e.current, payload, target, s, e.history.length⟩,
        { e with
          current := target
          ctx := hout.ctx
          history := e.history ++
            [⟨input, e.current, payload, target, s, e.history.length⟩] }) := by
  simp [runTurn, commit, hnc, hsd, hllm, hres, hh, hret, hpn]
  simpa using hreg

/-- C10 witness: A's handler records the resolver's proposal "B" (the
value `get_next_state` reports) and calls `set_next_state("C")`; the turn
commits to C, not B. -/
theorem set_next_state_overrides_resolver_witness :
    (runTurn engineN "go" (llmPick "B")).2.current = "C" ∧
      ctxGet (runTurn engineN "go" (llmPick "B")).2.ctx "proposed" = some "B" := by
  have h := set_next_state_overrides_resolver engineN "go" (llmPick "B") sdAN
    "payload" "B" "B" ⟨[("proposed", "B")], some "C", .text "done"⟩ "done" "C"
    rfl rfl rfl rfl rfl rfl rfl rfl
  refine ⟨?_, ?_⟩ <;> (rw [h]; try rfl)

end LLMSM
